import Mathlib

/-!
# Verification of the gowav audio-analysis pipeline

Shallow embedding of `internal/audio` (model.go, processor.go, processor_viz.go)
from the gowav repository, together with proofs of the specification claims.

Modelling conventions:
* Go `float64` values are modelled as `ℚ`.  Every claim proved below concerns
  either exact dyadic arithmetic (16-bit PCM scaling by powers of two), pure
  structural facts (lengths, state transitions), or the symbolic tempo formula
  that the spec itself states over the reals, so the rational idealization is
  faithful for these properties.  The transcendental primitives that the code
  takes from the standard library (`math.Sqrt`, `math.Cos` inside the FFT
  windowing) and gonum's FFT are abstracted as function parameters; no claim
  below depends on their values.
* Go `int` is modelled as `ℤ` where values can be negative (sample rates,
  byte counts, frame indices) and as `ℕ` for lengths and for the analysis
  sizes `windowSize`/`hopSize`/`fftSize` (the code only ever uses the positive
  defaults 2048/512/2048; `SetParameters` is never called).
* Goroutine pools writing to disjoint rows are modelled by their sequential
  equivalent; a cancelled run is modelled by the set of frames the workers
  completed before observing the cancellation signal.
-/

namespace Gowav

/-- Go `int16` wraparound: reduce an integer into `[-32768, 32767]` modulo `2^16`,
as Go's two's-complement `int16` arithmetic does on overflow. -/
def int16wrap (z : ℤ) : ℤ := (z + 32768) % 65536 - 32768

/-- Go expression `int16(lo) | int16(hi)<<8`: assemble a little-endian 16-bit sample from
two bytes (each byte reduced mod 256 to reflect the Go `byte` type). -/
def byteToInt16 (lo hi : ℕ) : ℤ := int16wrap ((lo % 256 : ℕ) + 256 * (hi % 256 : ℕ))

/-- Go's `int(x)` conversion from a float: truncation toward zero. -/
def truncQ (q : ℚ) : ℤ := if 0 ≤ q then ⌊q⌋ else -⌊-q⌋

/-- Go's `math.Round`: round half away from zero. -/
def roundHalfAway (q : ℚ) : ℤ := if 0 ≤ q then ⌊q + 1/2⌋ else -⌊-q + 1/2⌋

/-- The audio `Model` of model.go: raw PCM plus the derived analysis artifacts.
The auxiliary feature fields (`SpectralFlux`, `PeakFrequencies`, `RMSEnergy`)
are not referenced by any claim and are omitted. -/
structure Model where
  rawData : List ℚ
  sampleRate : ℤ
  fftData : List (List ℚ)
  freqBands : List ℚ
  beatData : List ℚ
  beatOnsets : List Bool
  estimatedTempo : ℚ
  windowSize : ℕ
  hopSize : ℕ
  fftSize : ℕ
deriving Repr, DecidableEq

/-- Constructor `NewModel`: default analysis parameters, everything else empty. -/
def NewModel (sampleRate : ℤ) : Model :=
  { rawData := [], sampleRate := sampleRate, fftData := [], freqBands := [],
    beatData := [], beatOnsets := [], estimatedTempo := 0,
    windowSize := 2048, hopSize := 512, fftSize := 2048 }

/-! ## WaveformSource (decodeMP3ToPCM / AnalyzeWaveform / processWaveformChunk) -/

/-- One mono sample of `decodeMP3ToPCM`:
`mono := float64(left+right) * 0.5; mono /= 32768.0`, where `left+right` is Go
`int16` addition (wrapping).  All operations are exact in `float64` here
(small integers scaled by powers of two), so the `ℚ` value is bit-faithful. -/
def monoSample (left right : ℤ) : ℚ := ((int16wrap (left + right) : ℤ) : ℚ) * (1/2) / 32768

/-- The per-frame conversion loop of `decodeMP3ToPCM` over the decoder's output
bytes: each 4-byte frame `[l0, l1, r0, r1]` yields one mono sample. -/
def decodeFrames : List ℕ → List ℚ
  | b0 :: b1 :: b2 :: b3 :: rest =>
      monoSample (byteToInt16 b0 b1) (byteToInt16 b2 b3) :: decodeFrames rest
  | _ => []

/-- One sample of `processWaveformChunk`:
`val := int16(rawBytes[i]) | int16(rawBytes[i+1])<<8; RawData[i/2] = float64(val) / 32768.0`. -/
def waveformSample (lo hi : ℕ) : ℚ := ((byteToInt16 lo hi : ℤ) : ℚ) / 32768

/-- Method `AnalyzeWaveform` (raw 16-bit PCM variant): rejects inputs shorter than two
bytes, otherwise converts byte pairs to samples.  The parallel chunk loop is
modelled by its sequential equivalent (sample `k` comes from bytes `2k, 2k+1`;
chunks are contiguous and rows disjoint). -/
def rawOfBytes (bytes : List ℕ) : List ℚ :=
  (List.range (bytes.length / 2)).map
    (fun k => waveformSample (bytes.getD (2*k) 0) (bytes.getD (2*k+1) 0))

def analyzeWaveform (m : Model) (bytes : List ℕ) : Except String Model :=
  if bytes.length < 2 then .error "data too short"
  else .ok { m with rawData := rawOfBytes bytes }

/-! ## SpectralAnalyzer (AnalyzeSpectrum / initFrequencyBands / fftWorker) -/

/-- Method `initFrequencyBands`: `FreqBands[i] = i * (sampleRate/2) / (fftSize/2)`. -/
def initFreqBands (sampleRate : ℤ) (fftSize : ℕ) : List ℚ :=
  (List.range (fftSize / 2)).map
    (fun i => (i : ℚ) * ((sampleRate : ℚ) / 2) / ((fftSize / 2 : ℕ) : ℚ))

/-- Frame count `numWindows := (len(m.RawData) - m.windowSize) / m.hopSize` (Go integer
division; used only under `windowSize ≤ len(rawData)`, where `ℕ` subtraction
and division agree with Go). -/
def numWindowsOf (m : Model) : ℕ := (m.rawData.length - m.windowSize) / m.hopSize

/-- Method `AnalyzeSpectrum`.  `mag w f` abstracts the gonum FFT magnitude
`sqrt(re^2+im^2)` of the Hanning-windowed, zero-padded frame `w` at bin `f`
(an external numeric primitive); the structure of the output — the guards, the
frame count and the row lengths fixed by the two `make` calls — is the code's. -/
def analyzeSpectrum (mag : ℕ → ℕ → ℚ) (m : Model) : Except String Model :=
  if m.sampleRate ≤ 0 then .error "invalid sample rate"
  else if m.rawData.length < m.windowSize then .error "insufficient data for spectrum analysis"
  else if numWindowsOf m < 1 then .error "not enough samples for any FFT window"
  else .ok { m with
    freqBands := initFreqBands m.sampleRate m.fftSize,
    fftData := (List.range (numWindowsOf m)).map
      (fun w => (List.range (m.fftSize / 2)).map (mag w)) }

/-- The model state observable after `AnalyzeSpectrum` is cancelled mid-stage:
`m.FFTData` was already assigned the full `numWindows × fftSize/2` zero matrix
before the workers started, the workers wrote the rows in `done` in place, and
the function returned the cancellation error without undoing any of it. -/
def analyzeSpectrumCancelled (mag : ℕ → ℕ → ℚ) (done : ℕ → Bool) (m : Model) :
    Model × Except String Unit :=
  if m.sampleRate ≤ 0 then (m, .error "invalid sample rate")
  else if m.rawData.length < m.windowSize then (m, .error "insufficient data for spectrum analysis")
  else if numWindowsOf m < 1 then (m, .error "not enough samples for any FFT window")
  else
    ({ m with
       freqBands := initFreqBands m.sampleRate m.fftSize,
       fftData := (List.range (numWindowsOf m)).map
         (fun w => if done w then (List.range (m.fftSize / 2)).map (mag w)
                   else List.replicate (m.fftSize / 2) 0) },
     .error "analysis cancelled")

/-! ## OnsetBeatTracker (detectBeats / refineBeatDetection / calculateLocalThreshold) -/

/-- The interval-collection loop of `detectBeats`: walk the onset flags with the
current index `i` and the index of the last onset seen (`-1` when none yet),
emitting `i - lastBeat` at every onset after the first. -/
def onsetIntervalsAux : List Bool → ℤ → ℤ → List ℚ
  | [], _, _ => []
  | b :: rest, i, lastBeat =>
    if b then
      (if lastBeat ≠ -1 then [((i - lastBeat : ℤ) : ℚ)] else []) ++
        onsetIntervalsAux rest (i + 1) i
    else onsetIntervalsAux rest (i + 1) lastBeat

/-- Inter-onset frame distances of an onset series. -/
def onsetIntervals (onsets : List Bool) : List ℚ := onsetIntervalsAux onsets 0 (-1)

/-- The modal-bucket scan of `detectBeats`: starting from `bestInterval = 0`,
`maxCount = 0`, keep a bucket when its histogram count strictly exceeds the
best so far.  (Go iterates the histogram map in unspecified order; the model
fixes left-to-right order over the bucket list, which agrees with the code on
everything the claims state — the chosen bucket has maximal count.) -/
def pickModal (buckets : List ℤ) : ℤ :=
  buckets.foldl (fun best b => if buckets.count best < buckets.count b then b else best) 0

/-- Method `calculateLocalThreshold`: mean plus 1.5 standard deviations of `BeatData`
over the symmetric window `[pos-21, pos+21]` clamped to the array, `0` when the
window is empty.  `sqrtQ` abstracts `math.Sqrt`. -/
def calculateLocalThreshold (sqrtQ : ℚ → ℚ) (beatData : List ℚ) (pos : ℤ) : ℚ :=
  let start := max 0 (pos - 21)
  let stop := min ((beatData.length : ℤ) - 1) (pos + 21)
  if stop < start then 0
  else
    let vals := (List.range (stop - start + 1).toNat).map
      (fun k => beatData.getD (start + k).toNat 0)
    let count : ℚ := (vals.length : ℚ)
    let mean := vals.sum / count
    let variance := (vals.map (fun v => (v - mean) ^ 2)).sum / count
    mean + (3/2) * sqrtQ variance

/-- One beat-grid walk of `refineBeatDetection`: from `expectedPos`, round to
`pos`, stop if out of range, take the argmax of `BeatData` over
`[pos-searchWindow, pos+searchWindow]` (strict improvement, seeded with energy
`0` at `pos`), mark it refined when it beats the local threshold, and step by
`framesPerBeat`.  `fuel` bounds the recursion; every call below passes
`length + 1` with `framesPerBeat ≥ 1`, where the bound is never hit. -/
def refineStep (sqrtQ : ℚ → ℚ) (beatData : List ℚ) (framesPerBeat : ℚ)
    (searchWindow : ℤ) : ℕ → ℚ → List Bool → List Bool
  | 0, _, refined => refined
  | fuel + 1, expectedPos, refined =>
    if expectedPos < (refined.length : ℚ) then
      let pos := roundHalfAway expectedPos
      if pos < 0 ∨ (refined.length : ℤ) ≤ pos then refined
      else
        let start := max 0 (pos - searchWindow)
        let stop := min ((refined.length : ℤ) - 1) (pos + searchWindow)
        let best := ((List.range (stop - start + 1).toNat).map (fun k => start + k)).foldl
          (fun (acc : ℚ × ℤ) i =>
            if acc.1 < beatData.getD i.toNat 0 then (beatData.getD i.toNat 0, i) else acc)
          (0, pos)
        let threshold := calculateLocalThreshold sqrtQ beatData best.2
        let refined' := if threshold < best.1 then refined.set best.2.toNat true else refined
        refineStep sqrtQ beatData framesPerBeat searchWindow fuel
          (expectedPos + framesPerBeat) refined'
    else refined

/-- Method `refineBeatDetection`: rebuild the onset series on the beat grid implied by
`EstimatedTempo`.  Only `BeatOnsets` is modified. -/
def refineBeatDetection (sqrtQ : ℚ → ℚ) (m : Model) : Model :=
  let framesPerBeat : ℚ := (60 / m.estimatedTempo) * ((m.sampleRate : ℚ) / (m.hopSize : ℚ))
  if framesPerBeat ≤ 0 then m
  else
    let searchWindow : ℤ := truncQ (framesPerBeat * (1/10))
    match m.beatOnsets.findIdx? (· = true) with
    | none => m
    | some firstBeat =>
      let refined0 := (List.replicate m.beatOnsets.length false).set firstBeat true
      let refined := refineStep sqrtQ m.beatData framesPerBeat searchWindow
        (m.beatOnsets.length + 1) (firstBeat : ℚ) refined0
      { m with beatOnsets := refined }

/-- Method `detectBeats`: histogram of rounded inter-onset distances, modal bucket as
the beat period, `BPM = 60 / (period·hopSize/sampleRate)`, default 120 BPM with
no refinement when there are no intervals. -/
def detectBeats (sqrtQ : ℚ → ℚ) (m : Model) : Model :=
  let intervals := onsetIntervals m.beatOnsets
  if intervals.isEmpty then { m with estimatedTempo := 120 }
  else
    let buckets := intervals.map roundHalfAway
    let bestInterval := pickModal buckets
    if 0 < bestInterval then
      let secondsPerBeat : ℚ := ((bestInterval * (m.hopSize : ℤ) : ℤ) : ℚ) / (m.sampleRate : ℚ)
      let m' := if 0 < secondsPerBeat then { m with estimatedTempo := 60 / secondsPerBeat }
                else { m with estimatedTempo := 120 }
      refineBeatDetection sqrtQ m'
    else { m with estimatedTempo := 120 }

/-- Method `GetFrequencyResponse`: guard against an invalid sample rate or hop size,
convert the timestamp (in seconds) to a frame index by truncation, and return
`nil` out of range, the frame's bin slice otherwise. -/
def getFrequencyResponse (m : Model) (tsSeconds : ℚ) : Option (List ℚ) :=
  if m.sampleRate ≤ 0 ∨ m.hopSize = 0 then none
  else if truncQ (tsSeconds * (m.sampleRate : ℚ) / (m.hopSize : ℚ)) < 0 ∨
      (m.fftData.length : ℤ) ≤ truncQ (tsSeconds * (m.sampleRate : ℚ) / (m.hopSize : ℚ)) then none
  else some (m.fftData.getD (truncQ (tsSeconds * (m.sampleRate : ℚ) / (m.hopSize : ℚ))).toNat [])

/-! ## AnalysisCoordinator (processor.go / processor_viz.go)

The `Processor` is modelled as an explicit state record; each Go method becomes
a state-transition function.  The cancellation channel is modelled by a
generation counter: `close(p.analysisCancel)` followed by reallocation is one
increment, so workers listening on an old generation are cancelled exactly when
the generation has moved on.  Wall-clock quantities (`StartTime`, ETA text) are
not modelled; ETA message strings enter as parameters. -/

inductive PState
  | idle
  | loading
  | analyzing
deriving Repr, DecidableEq

/-- Status record `ProcessingStatus` (without the wall-clock `StartTime` field). -/
structure Status where
  state : PState
  message : String
  progress : ℚ
  canCancel : Bool
  bytesLoaded : ℤ
  totalBytes : ℤ
deriving Repr, DecidableEq

inductive ViewMode
  | waveform
  | spectrogram
  | density
  | tempo
  | beatMap
deriving Repr, DecidableEq

/-- Function `getModeName` of processor_viz.go. -/
def getModeName : ViewMode → String
  | .waveform => "waveform"
  | .spectrogram => "spectrogram"
  | .density => "density"
  | .tempo => "tempo"
  | .beatMap => "beatmap"

/-- The coordinator state: loaded bytes, lazily built model, current status,
cancellation generation, per-mode analysis/visualization caches and the
manager's active mode. -/
structure Processor where
  currentFile : Option (List ℕ)
  audioModel : Option Model
  status : Status
  cancelGen : ℕ
  analyzedFor : ViewMode → Bool
  vizCache : ViewMode → Bool
  activeMode : Option ViewMode

/-- Constructor `NewProcessor`: empty caches (a nil Go map reads as all-false), fresh
cancellation channel, zero-valued status (state `Idle`). -/
def newProcessor : Processor :=
  { currentFile := none, audioModel := none,
    status := { state := .idle, message := "", progress := 0, canCancel := false,
                bytesLoaded := 0, totalBytes := 0 },
    cancelGen := 0,
    analyzedFor := fun _ => false, vizCache := fun _ => false, activeMode := none }

/-- Method `CancelProcessing`: close the cancellation channel and install a fresh one
(generation bump), set status to Idle / "Processing cancelled". -/
def cancelProcessing (p : Processor) : Processor :=
  { p with
    cancelGen := p.cancelGen + 1,
    status := { state := .idle, message := "Processing cancelled", progress := 0,
                canCancel := false, bytesLoaded := 0, totalBytes := 0 } }

/-- The synchronous prefix of `LoadFile` (before the loader goroutine starts):
cancel any in-flight work, clear the file, model and both caches, and enter the
Loading state. -/
def loadFileStart (p : Processor) : Processor :=
  let p1 := cancelProcessing p
  { p1 with
    currentFile := none, audioModel := none,
    analyzedFor := fun _ => false, vizCache := fun _ => false,
    status := { state := .loading, message := "Loading file...", progress := 0,
                canCancel := true, bytesLoaded := 0, totalBytes := 0 } }

/-- Outcome of `SwitchVisualization` as seen by the caller (`(string, error)`
in Go): `busy` carries the in-flight status message
(`"analysis in progress: <msg>"`), `noData` is `"no audio data available"`,
`switched` is the immediate `"Switched to X visualization"` success, and
`preparing` is the non-blocking `"preparing visualization"` acknowledgment. -/
inductive SwitchResult
  | busy (msg : String)
  | noData
  | switched (modeName : String)
  | preparing
deriving Repr, DecidableEq

/-- The status installed when `SwitchVisualization` starts an analysis run. -/
def analyzingStatusFor (mode : ViewMode) : Status :=
  { state := .analyzing,
    message := "Preparing " ++ getModeName mode ++ " visualization...",
    progress := 0, canCancel := true, bytesLoaded := 0, totalBytes := 0 }

/-- The synchronous part of `SwitchVisualization`: busy while analyzing, reject
when no decoded audio is present, switch immediately on a cache hit, otherwise
publish the Analyzing status and hand off to the background analysis. -/
def switchVisualization (p : Processor) (mode : ViewMode) : SwitchResult × Processor :=
  if p.status.state = .analyzing then (.busy p.status.message, p)
  else
    match p.audioModel with
    | none => (.noData, p)
    | some m =>
      if m.rawData.length = 0 then (.noData, p)
      else if p.vizCache mode then
        (.switched (getModeName mode), { p with activeMode := some mode })
      else (.preparing, { p with status := analyzingStatusFor mode })

/-- Method `updateAnalysisProgress`: clamp the reported fraction into `[0,1]` and
publish it under the Analyzing state.  `etaMsg` stands for the wall-clock ETA
text computed from `elapsed/frac`. -/
def updateAnalysisProgress (p : Processor) (frac : ℚ) (etaMsg : String) : Processor :=
  let f := if frac < 0 then 0 else if 1 < frac then 1 else frac
  { p with
    status := { state := .analyzing, message := "Analyzing... (ETA: " ++ etaMsg ++ ")",
                progress := f, canCancel := true, bytesLoaded := 0, totalBytes := 0 } }

/-- Method `updateLoadProgress`: publish `bytesRead/total` (no clamping; `0` when the
total is unknown) under the Loading state. -/
def updateLoadProgress (p : Processor) (bytesRead total : ℤ) (etaMsg : String) : Processor :=
  let progress : ℚ := if 0 < total then (bytesRead : ℚ) / (total : ℚ) else 0
  { p with
    status := { state := .loading, message := "Loading file... (ETA: " ++ etaMsg ++ ")",
                progress := progress, canCancel := true,
                bytesLoaded := bytesRead, totalBytes := total } }

/-! ## Concrete fixtures used by witnesses and counterexamples -/

/-- A small concrete model: 8 zero samples, window 4, hop 2, fft size 4. -/
def c1Model : Model :=
  { NewModel 44100 with
    rawData := List.replicate 8 0, windowSize := 4, hopSize := 2, fftSize := 4 }

/-- A processor with a waveform analysis in flight. -/
def pAnalyzing : Processor :=
  { newProcessor with status := analyzingStatusFor .waveform }

/-- A model holding one decoded sample. -/
def mLoaded : Model := { NewModel 44100 with rawData := [0] }

/-- An idle processor whose track is decoded and whose every mode is cached. -/
def pCached : Processor :=
  { newProcessor with audioModel := some mLoaded, vizCache := fun _ => true }

/-- A model with onsets at frames 0, 2 and 3 (intervals 2 and 1) at the default
hop 512 and sample rate 512. -/
def mOnsets : Model := { NewModel 512 with beatOnsets := [true, false, true, true] }

/-- A model whose onset series is all false. -/
def mNoOnsets : Model := { NewModel 512 with beatOnsets := [false, false] }

/-- A model with a single one-bin spectrogram frame at sample rate 1, hop 1. -/
def mFreq : Model := { NewModel 1 with hopSize := 1, fftData := [[5]] }

/-! ## Claim C1 -/

/-- C1: for every `rawSamples` of length `N ≥ windowSize` (with a valid sample
rate and positive hop), `AnalyzeSpectrum` produces exactly
`(N - windowSize) / hopSize` spectrogram frames, each row of length
`fftSize/2`, and fails with the insufficient-data error when that count is `< 1`. -/
theorem C1_spectrum_frame_count (mag : ℕ → ℕ → ℚ) (m : Model)
    (hsr : 0 < m.sampleRate) (hlen : m.windowSize ≤ m.rawData.length) :
    (1 ≤ numWindowsOf m →
      ∃ m', analyzeSpectrum mag m = .ok m' ∧
        m'.fftData.length = numWindowsOf m ∧
        ∀ row ∈ m'.fftData, row.length = m.fftSize / 2) ∧
    (numWindowsOf m < 1 →
      analyzeSpectrum mag m = .error "not enough samples for any FFT window") := by
  constructor
  · intro hnw
    have heq : analyzeSpectrum mag m = .ok { m with
        freqBands := initFreqBands m.sampleRate m.fftSize,
        fftData := (List.range (numWindowsOf m)).map
          (fun w => (List.range (m.fftSize / 2)).map (mag w)) } := by
      unfold analyzeSpectrum
      rw [if_neg (by omega), if_neg (by omega), if_neg (by omega)]
    refine ⟨_, heq, by simp, ?_⟩
    intro row hrow
    simp only [List.mem_map] at hrow
    obtain ⟨w, _, hw⟩ := hrow
    simp [← hw]
  · intro hnw
    unfold analyzeSpectrum
    rw [if_neg (by omega), if_neg (by omega), if_pos hnw]

/-- Witness for C1 at a concrete input: 8 samples, window 4, hop 2 give 2 frames. -/
theorem C1_spectrum_frame_count_witness :
    ∃ m', analyzeSpectrum (fun _ _ => 0) c1Model = .ok m' ∧
      m'.fftData.length = 2 ∧ ∀ row ∈ m'.fftData, row.length = 2 := by
  have h := (C1_spectrum_frame_count (fun _ _ => 0) c1Model
      (by decide) (by decide)).1 (by decide)
  obtain ⟨m', h1, h2, h3⟩ := h
  exact ⟨m', h1, by simpa [numWindowsOf, c1Model, NewModel] using h2,
    by simpa [c1Model, NewModel] using h3⟩

/-! ## Claim C7 -/

/-- Reduction by `Int.emod` into `[-32768, 32767]`: the wrapped value is a valid `int16`. -/
theorem int16wrap_bounds (z : ℤ) : -32768 ≤ int16wrap z ∧ int16wrap z ≤ 32767 := by
  unfold int16wrap
  omega

/-- A wrapped mixdown sample `float64(left+right)·0.5/32768` lies in `[-1,1]`
(in fact in `[-1/2, 1/2)`), for arbitrary integer inputs. -/
theorem monoSample_bounds (l r : ℤ) : -1 ≤ monoSample l r ∧ monoSample l r ≤ 1 := by
  obtain ⟨h1, h2⟩ := int16wrap_bounds (l + r)
  have hc1 : (-32768 : ℚ) ≤ ((int16wrap (l + r) : ℤ) : ℚ) := by exact_mod_cast h1
  have hc2 : ((int16wrap (l + r) : ℤ) : ℚ) ≤ 32767 := by exact_mod_cast h2
  unfold monoSample
  constructor <;> linarith

/-- A raw 16-bit sample scaled by `1/32768` lies in `[-1,1]`. -/
theorem waveformSample_bounds (lo hi : ℕ) :
    -1 ≤ waveformSample lo hi ∧ waveformSample lo hi ≤ 1 := by
  obtain ⟨h1, h2⟩ := int16wrap_bounds ((lo % 256 : ℕ) + 256 * (hi % 256 : ℕ))
  have hc1 : (-32768 : ℚ) ≤ ((byteToInt16 lo hi : ℤ) : ℚ) := by
    unfold byteToInt16; exact_mod_cast h1
  have hc2 : ((byteToInt16 lo hi : ℤ) : ℚ) ≤ 32767 := by
    unfold byteToInt16; exact_mod_cast h2
  unfold waveformSample
  constructor <;> linarith

/-- Every sample the mp3 frame loop emits lies in `[-1,1]`. -/
theorem decodeFrames_bounds (bytes : List ℕ) :
    ∀ x ∈ decodeFrames bytes, -1 ≤ x ∧ x ≤ 1 := by
  induction bytes using decodeFrames.induct with
  | case1 b0 b1 b2 b3 rest ih =>
    intro x hx
    rw [decodeFrames] at hx
    rcases List.mem_cons.mp hx with h | h
    · subst h; exact monoSample_bounds _ _
    · exact ih x h
  | case2 bytes h =>
    intro x hx
    rw [decodeFrames] at hx
    · simp at hx
    · exact h

/-- C7: every element of `rawSamples` produced by waveform decoding lies in
`[-1,1]`: the mp3 mixdown sample for any pair of 16-bit inputs, every sample of
the mp3 decode loop, and every element `AnalyzeWaveform` publishes. -/
theorem C7_samples_in_range :
    (∀ l r : ℤ, -32768 ≤ l → l ≤ 32767 → -32768 ≤ r → r ≤ 32767 →
      -1 ≤ monoSample l r ∧ monoSample l r ≤ 1) ∧
    (∀ bytes : List ℕ, ∀ x ∈ decodeFrames bytes, -1 ≤ x ∧ x ≤ 1) ∧
    (∀ (m : Model) (bytes : List ℕ) (res : Model),
      analyzeWaveform m bytes = .ok res → ∀ x ∈ res.rawData, -1 ≤ x ∧ x ≤ 1) := by
  refine ⟨fun l r _ _ _ _ => monoSample_bounds l r, decodeFrames_bounds, ?_⟩
  intro m bytes res hres x hx
  unfold analyzeWaveform at hres
  split at hres
  · exact absurd hres (by simp)
  · cases hres
    simp only [rawOfBytes, List.mem_map] at hx
    obtain ⟨k, _, hk⟩ := hx
    rw [← hk]
    exact waveformSample_bounds _ _

/-- Witness for C7 at concrete inputs: the extreme mixdown pair, a concrete
mp3 frame, and a concrete two-byte `AnalyzeWaveform` run. -/
theorem C7_samples_in_range_witness :
    (-1 ≤ monoSample 32767 32767 ∧ monoSample 32767 32767 ≤ 1) ∧
    (∀ x ∈ decodeFrames [255, 127, 255, 127], -1 ≤ x ∧ x ≤ 1) ∧
    (∀ x ∈ ({ NewModel 44100 with rawData := rawOfBytes [0, 128] } : Model).rawData,
      -1 ≤ x ∧ x ≤ 1) :=
  ⟨C7_samples_in_range.1 32767 32767 (by norm_num) (by norm_num) (by norm_num) (by norm_num),
   C7_samples_in_range.2.1 [255, 127, 255, 127],
   C7_samples_in_range.2.2 (NewModel 44100) [0, 128] _ rfl⟩

/-! ## Claim C4 -/

/-- An onset series with no onsets yields no intervals. -/
theorem onsetIntervalsAux_all_false :
    ∀ (l : List Bool) (i lastBeat : ℤ), (∀ b ∈ l, b = false) →
      onsetIntervalsAux l i lastBeat = [] := by
  intro l
  induction l with
  | nil => intro i lastBeat _; rfl
  | cons b rest ih =>
    intro i lastBeat h
    have hb : b = false := h b (List.mem_cons_self b rest)
    subst hb
    simp only [onsetIntervalsAux, Bool.false_eq_true, if_false]
    exact ih (i + 1) lastBeat (fun x hx => h x (List.mem_cons_of_mem _ hx))

/-- Inter-onset distances are at least one frame (onset indices are strictly
increasing along the scan). -/
theorem onsetIntervalsAux_ge_one :
    ∀ (l : List Bool) (i lastBeat : ℤ), lastBeat < i →
      ∀ x ∈ onsetIntervalsAux l i lastBeat, (1 : ℚ) ≤ x := by
  intro l
  induction l with
  | nil => intro i lastBeat _ x hx; simp [onsetIntervalsAux] at hx
  | cons b rest ih =>
    intro i lastBeat hlt x hx
    cases b with
    | false =>
      simp only [onsetIntervalsAux, Bool.false_eq_true, if_false] at hx
      exact ih (i + 1) lastBeat (by omega) x hx
    | true =>
      simp only [onsetIntervalsAux, if_true] at hx
      rcases List.mem_append.mp hx with h1 | h2
      · by_cases hlb : lastBeat ≠ -1
        · rw [if_pos hlb] at h1
          simp only [List.mem_singleton] at h1
          subst h1
          have hz : (1 : ℤ) ≤ i - lastBeat := by omega
          exact_mod_cast hz
        · rw [if_neg hlb] at h1
          simp at h1
      · exact ih (i + 1) i (by omega) x h2

/-- Rounding half away from zero keeps values that are at least one at least one. -/
theorem roundHalfAway_ge_one {q : ℚ} (h : 1 ≤ q) : 1 ≤ roundHalfAway q := by
  unfold roundHalfAway
  rw [if_pos (by linarith)]
  exact Int.le_floor.mpr (by push_cast; linarith)

/-- The strict-improvement fold keeps a bucket of count at least the seed's and
at least every scanned bucket's. -/
theorem pickModal_fold_count (buckets : List ℤ) :
    ∀ (l : List ℤ) (best0 : ℤ),
      buckets.count best0 ≤ buckets.count
        (l.foldl (fun best b => if buckets.count best < buckets.count b then b else best) best0) ∧
      ∀ b ∈ l, buckets.count b ≤ buckets.count
        (l.foldl (fun best b => if buckets.count best < buckets.count b then b else best) best0) := by
  intro l
  induction l with
  | nil => intro best0; exact ⟨le_refl _, by simp⟩
  | cons c rest ih =>
    intro best0
    simp only [List.foldl_cons]
    have h1 : buckets.count best0 ≤
        buckets.count (if buckets.count best0 < buckets.count c then c else best0) := by
      split <;> omega
    have h2 : buckets.count c ≤
        buckets.count (if buckets.count best0 < buckets.count c then c else best0) := by
      split <;> omega
    obtain ⟨ha, hb⟩ := ih (if buckets.count best0 < buckets.count c then c else best0)
    refine ⟨le_trans h1 ha, ?_⟩
    intro b hbmem
    rcases List.mem_cons.mp hbmem with rfl | hmem
    · exact le_trans h2 ha
    · exact hb b hmem

/-- The strict-improvement fold returns either its seed or a scanned bucket. -/
theorem pickModal_fold_mem (buckets : List ℤ) :
    ∀ (l : List ℤ) (best0 : ℤ),
      l.foldl (fun best b => if buckets.count best < buckets.count b then b else best) best0
        = best0 ∨
      l.foldl (fun best b => if buckets.count best < buckets.count b then b else best) best0
        ∈ l := by
  intro l
  induction l with
  | nil => intro best0; exact Or.inl rfl
  | cons c rest ih =>
    intro best0
    simp only [List.foldl_cons]
    rcases ih (if buckets.count best0 < buckets.count c then c else best0) with h | h
    · rw [h]
      split
      · exact Or.inr (List.mem_cons_self _ _)
      · exact Or.inl rfl
    · exact Or.inr (List.mem_cons_of_mem _ h)

/-- On a nonempty bucket list (that does not contain the impossible bucket 0,
or does and it is modal anyway), the scan picks an element of maximal count. -/
theorem pickModal_spec (buckets : List ℤ) (hne : buckets ≠ []) :
    pickModal buckets ∈ buckets ∧
    ∀ b, buckets.count b ≤ buckets.count (pickModal buckets) := by
  have hcount := pickModal_fold_count buckets buckets 0
  have hmemor := pickModal_fold_mem buckets buckets 0
  have hmax : ∀ b, buckets.count b ≤ buckets.count (pickModal buckets) := by
    intro b
    by_cases hb : b ∈ buckets
    · exact hcount.2 b hb
    · rw [List.count_eq_zero_of_not_mem hb]; exact Nat.zero_le _
  refine ⟨?_, hmax⟩
  rcases hmemor with h | h
  · have hpm : pickModal buckets = 0 := h
    by_cases h0 : (0 : ℤ) ∈ buckets
    · rw [hpm]; exact h0
    · exfalso
      obtain ⟨d, hd⟩ := List.exists_mem_of_ne_nil buckets hne
      have hcd : 0 < buckets.count d := List.count_pos_iff.mpr hd
      have hle := hmax d
      rw [hpm, List.count_eq_zero_of_not_mem h0] at hle
      omega
  · exact h

/-- Method `refineBeatDetection` rewrites only `BeatOnsets`; the tempo is untouched. -/
theorem refineBeatDetection_tempo (sqrtQ : ℚ → ℚ) (m : Model) :
    (refineBeatDetection sqrtQ m).estimatedTempo = m.estimatedTempo := by
  unfold refineBeatDetection
  dsimp only
  split
  · rfl
  · split
    · rfl
    · rfl

/-- C4: `detectBeats` collects inter-onset distances; with no onsets at all the
tempo defaults to exactly 120 BPM and refinement is skipped (the model changes
only in its tempo field); otherwise the chosen period is a modal bucket of the
rounded-distance histogram and the tempo is `60 / (period·hopSize/sampleRate)`. -/
theorem C4_tempo_estimation (sqrtQ : ℚ → ℚ) (m : Model)
    (hsr : 0 < m.sampleRate) (hhop : 0 < m.hopSize) :
    ((∀ b ∈ m.beatOnsets, b = false) →
      detectBeats sqrtQ m = { m with estimatedTempo := 120 }) ∧
    (onsetIntervals m.beatOnsets ≠ [] →
      pickModal ((onsetIntervals m.beatOnsets).map roundHalfAway) ∈
        (onsetIntervals m.beatOnsets).map roundHalfAway ∧
      (∀ b : ℤ, ((onsetIntervals m.beatOnsets).map roundHalfAway).count b ≤
        ((onsetIntervals m.beatOnsets).map roundHalfAway).count
          (pickModal ((onsetIntervals m.beatOnsets).map roundHalfAway))) ∧
      (detectBeats sqrtQ m).estimatedTempo =
        60 / (((pickModal ((onsetIntervals m.beatOnsets).map roundHalfAway) *
          (m.hopSize : ℤ) : ℤ) : ℚ) / (m.sampleRate : ℚ))) := by
  constructor
  · intro hall
    have hint : onsetIntervals m.beatOnsets = [] :=
      onsetIntervalsAux_all_false m.beatOnsets 0 (-1) hall
    simp [detectBeats, hint]
  · intro hne
    have hbne : (onsetIntervals m.beatOnsets).map roundHalfAway ≠ [] := by
      simpa using hne
    obtain ⟨hmem, hmax⟩ := pickModal_spec _ hbne
    have hbest : 1 ≤ pickModal ((onsetIntervals m.beatOnsets).map roundHalfAway) := by
      obtain ⟨q, hq, hqe⟩ := List.mem_map.mp hmem
      rw [← hqe]
      exact roundHalfAway_ge_one
        (onsetIntervalsAux_ge_one m.beatOnsets 0 (-1) (by norm_num) q hq)
    have hpos : (0 : ℚ) <
        ((pickModal ((onsetIntervals m.beatOnsets).map roundHalfAway) *
          (m.hopSize : ℤ) : ℤ) : ℚ) / (m.sampleRate : ℚ) := by
      apply div_pos
      · have hz : (0 : ℤ) < pickModal ((onsetIntervals m.beatOnsets).map roundHalfAway) *
            (m.hopSize : ℤ) :=
          mul_pos (by omega) (by exact_mod_cast hhop)
        exact_mod_cast hz
      · exact_mod_cast hsr
    refine ⟨hmem, hmax, ?_⟩
    have hEmpty : (onsetIntervals m.beatOnsets).isEmpty = false := by
      obtain ⟨x, xs, hxs⟩ := List.exists_cons_of_ne_nil hne
      rw [hxs]; rfl
    have hdb : detectBeats sqrtQ m = refineBeatDetection sqrtQ
        { m with estimatedTempo :=
            60 / (((pickModal ((onsetIntervals m.beatOnsets).map roundHalfAway) *
              (m.hopSize : ℤ) : ℤ) : ℚ) / (m.sampleRate : ℚ)) } := by
      simp only [detectBeats, hEmpty, Bool.false_eq_true, if_false]
      rw [if_pos (by omega : (0 : ℤ) <
        pickModal ((onsetIntervals m.beatOnsets).map roundHalfAway))]
      rw [if_pos hpos]
    rw [hdb, refineBeatDetection_tempo]

/-- Witness for C4: the all-false fixture defaults to 120 BPM; the fixture with
onsets at frames 0, 2, 3 gets the modal-bucket tempo formula. -/
theorem C4_tempo_estimation_witness :
    detectBeats (fun q => q) mNoOnsets = { mNoOnsets with estimatedTempo := 120 } ∧
    (detectBeats (fun q => q) mOnsets).estimatedTempo =
      60 / (((pickModal ((onsetIntervals mOnsets.beatOnsets).map roundHalfAway) *
        (mOnsets.hopSize : ℤ) : ℤ) : ℚ) / (mOnsets.sampleRate : ℚ)) :=
  ⟨(C4_tempo_estimation (fun q => q) mNoOnsets (by decide) (by decide)).1 (by decide),
   ((C4_tempo_estimation (fun q => q) mOnsets (by decide) (by decide)).2
     (by rw [show onsetIntervals mOnsets.beatOnsets = [2, 1] from
       by norm_num [mOnsets, NewModel, onsetIntervals, onsetIntervalsAux]]
         exact List.cons_ne_nil _ _)).2.2⟩

/-! ## Claim C2 (corrected) -/

/-- C2 counterexample: a spectrum run on `c1Model` (2 frames pending) is
cancelled before any worker finishes a single frame (`done` is everywhere
false); the run reports the cancellation error, yet `FFTData` is not empty —
it was preallocated at full size before the workers started — so an
interrupted stage does not leave its target field empty. -/
theorem C2_cancel_counterexample :
    (analyzeSpectrumCancelled (fun _ _ => 1) (fun _ => false) c1Model).2 =
      .error "analysis cancelled" ∧
    (analyzeSpectrumCancelled (fun _ _ => 1) (fun _ => false) c1Model).1.fftData ≠ [] :=
  ⟨rfl, by decide⟩

/-- C2 amended: `CancelProcessing` does transition the status to Idle with the
cancellation message and installs a fresh cancellation signal; but a spectrum
stage interrupted mid-run leaves `FFTData` allocated at the full frame count
(completed rows filled, the rest zero rows), not empty, so emptiness does not
mark the field as "not yet computed". -/
theorem C2_cancel_amended (p : Processor) (mag : ℕ → ℕ → ℚ) (done : ℕ → Bool)
    (m : Model) (hsr : 0 < m.sampleRate) (hlen : m.windowSize ≤ m.rawData.length)
    (hnw : 1 ≤ numWindowsOf m) :
    (cancelProcessing p).status.state = .idle ∧
    (cancelProcessing p).status.message = "Processing cancelled" ∧
    (cancelProcessing p).cancelGen = p.cancelGen + 1 ∧
    (analyzeSpectrumCancelled mag done m).2 = .error "analysis cancelled" ∧
    (analyzeSpectrumCancelled mag done m).1.fftData.length = numWindowsOf m ∧
    (analyzeSpectrumCancelled mag done m).1.fftData ≠ [] := by
  have heq : analyzeSpectrumCancelled mag done m =
      ({ m with
         freqBands := initFreqBands m.sampleRate m.fftSize,
         fftData := (List.range (numWindowsOf m)).map
           (fun w => if done w then (List.range (m.fftSize / 2)).map (mag w)
                     else List.replicate (m.fftSize / 2) 0) },
       .error "analysis cancelled") := by
    unfold analyzeSpectrumCancelled
    rw [if_neg (by omega), if_neg (by omega), if_neg (by omega)]
  refine ⟨rfl, rfl, rfl, by rw [heq], by rw [heq]; simp, ?_⟩
  rw [heq]
  simp only [ne_eq, List.map_eq_nil_iff, List.range_eq_nil]
  omega

/-- Witness for C2's amended statement at the concrete cancelled run. -/
theorem C2_cancel_amended_witness :
    (cancelProcessing pCached).status.state = .idle ∧
    (analyzeSpectrumCancelled (fun _ _ => 1) (fun _ => true) c1Model).1.fftData.length =
      numWindowsOf c1Model :=
  have h := C2_cancel_amended pCached (fun _ _ => 1) (fun _ => true) c1Model
    (by decide) (by decide) (by decide)
  ⟨h.1, h.2.2.2.2.1⟩

/-! ## Claim C3 -/

/-- C3: while the coordinator is Analyzing, `SwitchVisualization` for any mode
returns a Busy result carrying the current status message and leaves the state
(including the in-flight run) untouched. -/
theorem C3_busy_while_analyzing (p : Processor) (mode : ViewMode)
    (h : p.status.state = .analyzing) :
    switchVisualization p mode = (.busy p.status.message, p) := by
  simp [switchVisualization, h]

/-- Witness for C3: a concrete analyzing processor rejects a spectrogram request. -/
theorem C3_busy_while_analyzing_witness :
    switchVisualization pAnalyzing .spectrogram =
      (.busy pAnalyzing.status.message, pAnalyzing) :=
  C3_busy_while_analyzing pAnalyzing .spectrogram rfl

/-! ## Claim C5 -/

/-- C5: once a mode is cached (and the processor is not analyzing and holds
decoded audio, as after the first request completes), `SwitchVisualization`
switches the active mode and returns the immediate "Switched to X" result; the
status, model, caches and cancellation signal are all left unchanged, so no
re-analysis happens. -/
theorem C5_cache_hit_idempotent (p : Processor) (mode : ViewMode) (m : Model)
    (hst : p.status.state ≠ .analyzing) (hm : p.audioModel = some m)
    (hraw : m.rawData.length ≠ 0) (hc : p.vizCache mode = true) :
    switchVisualization p mode =
      (.switched (getModeName mode), { p with activeMode := some mode }) ∧
    (switchVisualization p mode).2.status = p.status ∧
    (switchVisualization p mode).2.audioModel = p.audioModel ∧
    (switchVisualization p mode).2.cancelGen = p.cancelGen ∧
    (∀ md, (switchVisualization p mode).2.vizCache md = p.vizCache md) := by
  have heq : switchVisualization p mode =
      (.switched (getModeName mode), { p with activeMode := some mode }) := by
    simp [switchVisualization, hst, hm, hraw, hc]
  exact ⟨heq, by rw [heq], by rw [heq], by rw [heq], fun md => by rw [heq]⟩

/-- Witness for C5: a concrete cached processor switches to waveform immediately. -/
theorem C5_cache_hit_idempotent_witness :
    switchVisualization pCached .waveform =
      (.switched (getModeName .waveform), { pCached with activeMode := some .waveform }) ∧
    (switchVisualization pCached .waveform).2.status = pCached.status :=
  have h := C5_cache_hit_idempotent pCached .waveform mLoaded
    (by decide) rfl (by decide) rfl
  ⟨h.1, h.2.1⟩

/-! ## Claim C6 -/

/-- C6: `LoadFile` first cancels in-flight work (the cancellation generation
advances) and clears the track bytes, the `AudioModel` and both caches before
loading begins; and with an empty visualization cache no `SwitchVisualization`
call can return a cached "Switched to X" result, so everything is recomputed. -/
theorem C6_load_clears_state (p : Processor) :
    (loadFileStart p).audioModel = none ∧
    (loadFileStart p).currentFile = none ∧
    (∀ mode, (loadFileStart p).vizCache mode = false) ∧
    (∀ mode, (loadFileStart p).analyzedFor mode = false) ∧
    (loadFileStart p).status.state = .loading ∧
    (loadFileStart p).cancelGen = p.cancelGen + 1 ∧
    (∀ (q : Processor) (mode : ViewMode), (∀ md, q.vizCache md = false) →
      ∀ s, (switchVisualization q mode).1 ≠ SwitchResult.switched s) := by
  refine ⟨rfl, rfl, fun _ => rfl, fun _ => rfl, rfl, rfl, ?_⟩
  intro q mode hq s
  unfold switchVisualization
  split
  · simp
  · split
    · simp
    · split
      · simp
      · rw [if_neg (by simp [hq])]
        simp

/-- Witness for C6's conditional part at a concrete processor. -/
theorem C6_load_clears_state_witness :
    (loadFileStart pCached).audioModel = none ∧
    ∀ s, (switchVisualization (loadFileStart pCached) .waveform).1 ≠
      SwitchResult.switched s :=
  have h := C6_load_clears_state pCached
  ⟨h.1, h.2.2.2.2.2.2 (loadFileStart pCached) .waveform (fun _ => rfl)⟩

/-! ## Claim C8 -/

/-- C8: `AnalyzeWaveform` on fewer than two input bytes fails with the
data-too-short error (and hence publishes no samples). -/
theorem C8_waveform_short_input (m : Model) (bytes : List ℕ)
    (h : bytes.length < 2) :
    analyzeWaveform m bytes = .error "data too short" := by
  simp [analyzeWaveform, h]

/-- Witness for C8 on a one-byte input. -/
theorem C8_waveform_short_input_witness :
    analyzeWaveform (NewModel 44100) [7] = .error "data too short" :=
  C8_waveform_short_input (NewModel 44100) [7] (by norm_num)

/-! ## Claim C9 (corrected) -/

/-- C9 counterexample: `updateLoadProgress` does not clamp — with more bytes
read than the total (2 of 1) the published progress is 2, outside `[0,1]`. -/
theorem C9_progress_counterexample :
    1 < (updateLoadProgress newProcessor 2 1 "calculating...").status.progress := by
  norm_num [updateLoadProgress]

/-- C9 amended: `updateAnalysisProgress` clamps every reported fraction into
`[0,1]`; `updateLoadProgress` stays in `[0,1]` provided the bytes read do not
exceed the total (as holds for a well-formed source). -/
theorem C9_progress_clamped (p : Processor) (frac : ℚ) (eta : String)
    (bytesRead total : ℤ) (hbr : 0 ≤ bytesRead) (hle : bytesRead ≤ total) :
    (0 ≤ (updateAnalysisProgress p frac eta).status.progress ∧
      (updateAnalysisProgress p frac eta).status.progress ≤ 1) ∧
    (0 ≤ (updateLoadProgress p bytesRead total eta).status.progress ∧
      (updateLoadProgress p bytesRead total eta).status.progress ≤ 1) := by
  constructor
  · unfold updateAnalysisProgress
    dsimp only
    split_ifs with h1 h2
    · norm_num
    · norm_num
    · constructor <;> linarith
  · unfold updateLoadProgress
    dsimp only
    split_ifs with h
    · have htotal : (0 : ℚ) < (total : ℚ) := by exact_mod_cast h
      constructor
      · apply div_nonneg _ (le_of_lt htotal)
        exact_mod_cast hbr
      · rw [div_le_one htotal]
        exact_mod_cast hle
    · norm_num

/-- Witness for C9's amended statement at concrete inputs. -/
theorem C9_progress_clamped_witness :
    (0 ≤ (updateAnalysisProgress newProcessor 5 "eta").status.progress ∧
      (updateAnalysisProgress newProcessor 5 "eta").status.progress ≤ 1) ∧
    (0 ≤ (updateLoadProgress newProcessor 1 2 "eta").status.progress ∧
      (updateLoadProgress newProcessor 1 2 "eta").status.progress ≤ 1) :=
  C9_progress_clamped newProcessor 5 "eta" 1 2 (by norm_num) (by norm_num)

/-! ## Claim C10 -/

/-- C10: `GetFrequencyResponse` returns `nil` (never fails) when the sample
rate or hop size is invalid or the computed frame index is negative or at or
beyond the number of frames; when the index is in range it returns that
frame's bin slice. -/
theorem C10_frequency_response_bounds (m : Model) (ts : ℚ) :
    (m.sampleRate ≤ 0 ∨ m.hopSize = 0 → getFrequencyResponse m ts = none) ∧
    (truncQ (ts * (m.sampleRate : ℚ) / (m.hopSize : ℚ)) < 0 →
      getFrequencyResponse m ts = none) ∧
    ((m.fftData.length : ℤ) ≤ truncQ (ts * (m.sampleRate : ℚ) / (m.hopSize : ℚ)) →
      getFrequencyResponse m ts = none) ∧
    (0 < m.sampleRate → 0 < m.hopSize →
      0 ≤ truncQ (ts * (m.sampleRate : ℚ) / (m.hopSize : ℚ)) →
      truncQ (ts * (m.sampleRate : ℚ) / (m.hopSize : ℚ)) < (m.fftData.length : ℤ) →
      getFrequencyResponse m ts =
        some (m.fftData.getD (truncQ (ts * (m.sampleRate : ℚ) / (m.hopSize : ℚ))).toNat [])) := by
  refine ⟨?_, ?_, ?_, ?_⟩
  · intro h
    simp [getFrequencyResponse, h]
  · intro h
    unfold getFrequencyResponse
    split
    · rfl
    · rw [if_pos (Or.inl h)]
  · intro h
    unfold getFrequencyResponse
    split
    · rfl
    · rw [if_pos (Or.inr h)]
  · intro hsr hhop h0 hlt
    unfold getFrequencyResponse
    rw [if_neg (by push_neg; exact ⟨by omega, by omega⟩),
      if_neg (by push_neg; exact ⟨by omega, by omega⟩)]

/-- Witness for C10: the one-frame fixture answers timestamp 0 with its frame. -/
theorem C10_frequency_response_bounds_witness :
    getFrequencyResponse mFreq 0 = some [5] :=
  have h := (C10_frequency_response_bounds mFreq 0).2.2.2
    (by decide) (by decide)
    (by norm_num [truncQ, mFreq, NewModel])
    (by norm_num [truncQ, mFreq, NewModel])
  h.trans (by norm_num [truncQ, mFreq, NewModel])

end Gowav
